import Mathlib

/-!
Verification of the r3viewer review-dashboard view-model.

The definitions below are a shallow embedding of the dashboard logic in
`src/App.tsx` (the `filteredProjects` filter, the `stats` summary block and
`handleAnalyzeProject`) and of the `ScoreBadge` percentage derivation in the
badge component.  JavaScript strings are modelled as Lean `String`s,
JavaScript numbers as `Int`/`Rat` (with `Option` marking the NaN results of
`0/0`), and the five-valued status / four-valued filter enumerations as
inductive types whose string representations drive the comparisons, exactly
as the source compares status strings.
-/

/-- Project status, the five values accepted by `StatusBadge` in the badge
component (`"pending" | "in-progress" | "completed" | "failed" | "cancelled"`). -/
inductive Status where
  | pending
  | inProgress
  | completed
  | failed
  | cancelled
deriving DecidableEq, Repr

/-- The selectable filter values of `filterStatus` in `App.tsx`
(`"all" | "pending" | "in-progress" | "completed"`). -/
inductive FilterStatus where
  | all
  | pending
  | inProgress
  | completed
deriving DecidableEq, Repr

/-- Project type, as accepted by `ProjectTypeBadge`. -/
inductive PType where
  | individual
  | team
  | hackathon
  | assignment
deriving DecidableEq, Repr

/-- The string a `Status` value denotes in the source (status fields hold
these literal strings). -/
def statusStr : Status → String
  | .pending => "pending"
  | .inProgress => "in-progress"
  | .completed => "completed"
  | .failed => "failed"
  | .cancelled => "cancelled"

/-- The string a `FilterStatus` value denotes in the source. -/
def filterStr : FilterStatus → String
  | .all => "all"
  | .pending => "pending"
  | .inProgress => "in-progress"
  | .completed => "completed"

/-- One element of the `mockProjects` array in `App.tsx`: a student project
record.  Scores are integers (the source stores plain numbers; all mock
values are integral). -/
structure Project where
  id : Nat
  studentName : String
  projectTitle : String
  githubUrl : String
  technology : List String
  score : Int
  status : Status
  type : PType
  feedback : String
  lastUpdated : String
deriving DecidableEq, Repr

/-- The state held by the `App` component: the project working set
(`mockProjects`, mutated in place by `handleAnalyzeProject`) together with the
four `useState` hooks `selectedProject`, `isAnalyzing`, `searchTerm` and
`filterStatus`. -/
structure DashState where
  projects : List Project
  selectedProject : Option Project
  isAnalyzing : Bool
  searchTerm : String
  filterStatus : FilterStatus
deriving DecidableEq, Repr

/-- JavaScript `String.prototype.toLowerCase`, modelled character-wise. -/
def toLowerStr (s : String) : String :=
  ⟨s.data.map Char.toLower⟩

/-- JavaScript `String.prototype.includes`: `containsSub s pat` holds when
`pat` occurs in `s` as a contiguous substring. -/
def containsSub (s pat : String) : Bool :=
  s.toList.tails.any fun t => pat.toList.isPrefixOf t

/-- The `matchesSearch` predicate of `filteredProjects` in `App.tsx`:
`project.studentName.toLowerCase().includes(searchTerm.toLowerCase()) ||
 project.projectTitle.toLowerCase().includes(searchTerm.toLowerCase())`. -/
def matchesSearch (p : Project) (term : String) : Bool :=
  containsSub (toLowerStr p.studentName) (toLowerStr term) ||
    containsSub (toLowerStr p.projectTitle) (toLowerStr term)

/-- The `matchesStatus` predicate of `filteredProjects` in `App.tsx`:
`filterStatus === "all" || project.status === filterStatus`, a comparison of
the underlying status strings. -/
def matchesStatus (p : Project) (f : FilterStatus) : Bool :=
  filterStr f == "all" || statusStr p.status == filterStr f

/-- `filteredProjects` from `App.tsx`: keep the projects satisfying
`matchesSearch && matchesStatus`, in order. -/
def filteredProjects (s : DashState) : List Project :=
  s.projects.filter fun p => matchesSearch p s.searchTerm && matchesStatus p s.filterStatus

/-- The search/filter predicate exactly as the specification words it
(claim C1): the status filter is `all` or the record's status equals the
filter, and the search term is empty or `studentName` or `projectTitle`
contains it as a case-insensitive substring. -/
def specMatches (term : String) (f : FilterStatus) (p : Project) : Bool :=
  (filterStr f == "all" || statusStr p.status == filterStr f) &&
    (term == "" ||
      containsSub (toLowerStr p.studentName) (toLowerStr term) ||
      containsSub (toLowerStr p.projectTitle) (toLowerStr term))

/-- First half of `handleAnalyzeProject` in `App.tsx`, before the simulated
delay: `setIsAnalyzing(true)`. -/
def analyzeStart (s : DashState) : DashState :=
  { s with isAnalyzing := true }

/-- The in-place mutation performed after the delay:
`mockProjects.find(p => p.id === projectId)` followed by
`project.status = "completed"` — the first record with the given id (if any)
has its status set to completed, everything else is untouched. -/
def completeFirst : List Project → Nat → List Project
  | [], _ => []
  | p :: ps, pid =>
    if p.id = pid then { p with status := Status.completed } :: ps
    else p :: completeFirst ps pid

/-- Second half of `handleAnalyzeProject`, after the delay resolves:
`setIsAnalyzing(false)` and the status mutation of the matching record. -/
def analyzeFinish (s : DashState) (pid : Nat) : DashState :=
  { s with isAnalyzing := false, projects := completeFirst s.projects pid }

/-- The whole of `handleAnalyzeProject(projectId)` run to completion:
start, delay, finish. -/
def handleAnalyzeProject (s : DashState) (pid : Nat) : DashState :=
  analyzeFinish (analyzeStart s) pid

/-- Clicking the Analyze button (`App.tsx` lines 251-259).  The button carries
`disabled={isAnalyzing}`, so while an analysis is in flight the click does not
invoke `handleAnalyzeProject`: the state is unchanged and no completion is
scheduled (second component `none`).  Otherwise the handler starts and the
captured project id is pending completion. -/
def triggerAnalyze (s : DashState) (pid : Nat) : DashState × Option Nat :=
  if s.isAnalyzing then (s, none) else (analyzeStart s, some pid)

/-- JavaScript `Math.round`: round half toward positive infinity. -/
def jsRound (q : ℚ) : ℤ :=
  ⌊q + 1 / 2⌋

/-- JavaScript number division, with `none` standing for the NaN produced by
`0 / 0` (the only division the dashboard can reach with a zero divisor). -/
def jsDiv (a b : ℚ) : Option ℚ :=
  if b = 0 then none else some (a / b)

/-- The summary values of the `stats` object. `averageScore` is `none` exactly
when the source expression `Math.round(sum / length)` is NaN. -/
structure Stats where
  total : Nat
  completed : Nat
  inProgress : Nat
  pending : Nat
  averageScore : Option Int
deriving DecidableEq, Repr

/-- The `reduce((acc, p) => acc + p.score, 0)` accumulation in `stats`. -/
def sumScores (ps : List Project) : Int :=
  ps.foldl (fun acc p => acc + p.score) 0

/-- The `stats` object computed in `App.tsx` lines 126-132.  Each count
filters the full project list on the corresponding status string;
`averageScore` is `Math.round` of the total score divided by the list length.
On the empty list that division is `0 / 0`, i.e. NaN, and `Math.round(NaN)`
is NaN, modelled through `jsDiv` as `none`. -/
def stats (s : DashState) : Stats where
  total := s.projects.length
  completed := (s.projects.filter fun p => statusStr p.status == "completed").length
  inProgress := (s.projects.filter fun p => statusStr p.status == "in-progress").length
  pending := (s.projects.filter fun p => statusStr p.status == "pending").length
  averageScore :=
    (jsDiv (sumScores s.projects : ℚ) (s.projects.length : ℚ)).map fun q => jsRound q

/-- The percentage shown by `ScoreBadge` in the badge component:
`total > 0 ? Math.round((score / total) * 100) : 0`.  The division is modelled
through `jsDiv`, so an unguarded zero divisor would surface as `none`. -/
def scoreBadgePercentage (score total : Int) : Option Int :=
  if total > 0 then (jsDiv (score : ℚ) (total : ℚ)).map (fun q => jsRound (q * 100))
  else some 0

/-- Record 2 of `mockProjects` in `App.tsx`. -/
def omolloProject : Project :=
  ⟨2, "Omollo Victor", "STAFF_PULSE", "https://github.com/SK3CHI3/STAFF_PULSE.git",
    ["React", "Next.js", "TypeScript"], 98, Status.completed, PType.individual,
    "Outstanding enterprise-grade employee wellness platform with WhatsApp integration...",
    "3 hours ago"⟩

/-- Record 3 of `mockProjects` in `App.tsx`. -/
def jamesProject : Project :=
  ⟨3, "James Muganzi Imoli", "Ajirawise Job Alert Bot",
    "https://github.com/MuganziJames/-whatsapp-job-alert-bot-kenya.git",
    ["Python", "Flask", "WhatsApp Bot"], 97, Status.completed, PType.team,
    "OUTSTANDING professional-grade dual-platform job alert system for Kenyan youth...",
    "4 hours ago"⟩

/-- Record 6 of `mockProjects` in `App.tsx` (the only `pending` record, hence
the one whose Analyze button is rendered). -/
def magdalineProject : Project :=
  ⟨6, "Magdaline Mutave", "Poster & Flier Maker",
    "https://github.com/DOMOSH85/poster-flier-maker.git",
    ["React", "Node.js", "MongoDB"], 93, Status.pending, PType.team,
    "EXCEPTIONAL commercial-grade full-stack design platform...", "30 minutes ago"⟩

/-- The first record of the concrete scenario in the specification:
`{id:1, status:pending, score:80}` (display fields unspecified there). -/
def exPending80 : Project :=
  ⟨1, "", "", "", [], 80, Status.pending, PType.individual, "", ""⟩

/-- The second record of the concrete scenario in the specification:
`{id:2, status:completed, score:100}`. -/
def exCompleted100 : Project :=
  ⟨2, "", "", "", [], 100, Status.completed, PType.individual, "", ""⟩

theorem containsSub_empty_pat (s : String) : containsSub s "" = true := by
  unfold containsSub
  cases h : s.toList with
  | nil => simp [List.tails, List.isPrefixOf]
  | cons a as => simp [List.tails, List.isPrefixOf]

theorem toLowerStr_empty : toLowerStr "" = "" := by decide

theorem codeMatches_eq_specMatches (term : String) (f : FilterStatus) (p : Project) :
    (matchesSearch p term && matchesStatus p f) = specMatches term f p := by
  unfold matchesSearch matchesStatus specMatches
  cases te : term == "" with
  | true =>
    have h : term = "" := eq_of_beq te
    subst h
    simp [toLowerStr_empty, containsSub_empty_pat]
  | false =>
    simp [Bool.and_comm]

theorem filterCompleted_status (st : Status) :
    (filterStr FilterStatus.completed == "all" ||
      statusStr st == filterStr FilterStatus.completed) = true →
    st = Status.completed := by
  cases st <;> decide

theorem completeFirst_eq_set (ps : List Project) (pid : Nat)
    (hmem : pid ∈ ps.map Project.id) :
    ∃ i, ∃ hi : i < ps.length,
      (ps.get ⟨i, hi⟩).id = pid ∧
      completeFirst ps pid = ps.set i { ps.get ⟨i, hi⟩ with status := Status.completed } := by
  induction ps with
  | nil => simp at hmem
  | cons p ps ih =>
    by_cases hp : p.id = pid
    · exact ⟨0, by simp, hp, by simp [completeFirst, hp]⟩
    · have hmem' : pid ∈ ps.map Project.id := by
        simp only [List.map_cons, List.mem_cons] at hmem
        rcases hmem with h | h
        · exact absurd h.symm hp
        · exact h
      rcases ih hmem' with ⟨i, hi, hid, heq⟩
      exact ⟨i + 1, by simpa using Nat.succ_lt_succ hi, hid,
        by simp [completeFirst, hp, heq]⟩

theorem completeFirst_not_mem (ps : List Project) (pid : Nat)
    (h : pid ∉ ps.map Project.id) :
    completeFirst ps pid = ps := by
  induction ps with
  | nil => rfl
  | cons p ps ih =>
    rw [List.map_cons] at h
    have h1 : p.id ≠ pid := fun hc => h (by simp [hc])
    have h2 : pid ∉ ps.map Project.id := fun hc => h (List.mem_cons_of_mem _ hc)
    simp [completeFirst, h1, ih h2]

/-- Claim C1: for every state, `getFilteredProjects` returns exactly the
order-preserving subsequence of the project list consisting of the records
that match the status filter (filter is `all` or equal status) and the search
term (term empty, or `studentName` or `projectTitle` contains it as a
case-insensitive substring), and nothing else. -/
theorem claim_C1 (s : DashState) :
    filteredProjects s = s.projects.filter (specMatches s.searchTerm s.filterStatus) ∧
    List.Sublist (filteredProjects s) s.projects := by
  constructor
  · unfold filteredProjects
    exact List.filter_congr fun p _ => codeMatches_eq_specMatches s.searchTerm s.filterStatus p
  · exact List.filter_sublist _

/-- Claim C2: while `analysisInFlight` is true, triggering the Analyze button
for any project id leaves the state untouched and schedules no new
completion, so after the first in-flight analysis resolves the final state is
exactly the one reached by issuing only the first call. -/
theorem claim_C2 (s : DashState) (pid pid₀ : Nat) (h : s.isAnalyzing = true) :
    (triggerAnalyze s pid).1 = s ∧ (triggerAnalyze s pid).2 = none ∧
    analyzeFinish (triggerAnalyze s pid).1 pid₀ = analyzeFinish s pid₀ := by
  unfold triggerAnalyze
  rw [h]
  simp

theorem claim_C2_witness :
    (triggerAnalyze ⟨[jamesProject], none, true, "", FilterStatus.all⟩ 3).1 =
      ⟨[jamesProject], none, true, "", FilterStatus.all⟩ ∧
    (triggerAnalyze ⟨[jamesProject], none, true, "", FilterStatus.all⟩ 3).2 = none ∧
    analyzeFinish (triggerAnalyze ⟨[jamesProject], none, true, "", FilterStatus.all⟩ 3).1 5 =
      analyzeFinish ⟨[jamesProject], none, true, "", FilterStatus.all⟩ 5 :=
  claim_C2 ⟨[jamesProject], none, true, "", FilterStatus.all⟩ 3 5 rfl

/-- Claim C3 (code behaviour at the failing input): `stats.total` does equal
the length of the project list for every state, but on the empty project list
`averageScore` is NaN (`Math.round(0 / 0)`), modelled as `none` — not the `0`
the specification requires. -/
theorem claim_C3 :
    (stats ⟨[], none, false, "", FilterStatus.all⟩).averageScore = none ∧
    ∀ s : DashState, (stats s).total = s.projects.length :=
  ⟨by decide, fun _ => rfl⟩

/-- Claim C4: when the list of project ids is duplicate-free and contains the
requested id, a completed `analyzeProject(id)` clears `analysisInFlight` and
replaces exactly the record at the position of that id with the same record
whose status is set to `completed`; every other record and every other field
of the updated record are unchanged. -/
theorem claim_C4 (s : DashState) (pid : Nat)
    (_hnd : (s.projects.map Project.id).Nodup)
    (hmem : pid ∈ s.projects.map Project.id) :
    (handleAnalyzeProject s pid).isAnalyzing = false ∧
    ∃ i, ∃ hi : i < s.projects.length,
      (s.projects.get ⟨i, hi⟩).id = pid ∧
      (handleAnalyzeProject s pid).projects =
        s.projects.set i { s.projects.get ⟨i, hi⟩ with status := Status.completed } :=
  ⟨rfl, completeFirst_eq_set s.projects pid hmem⟩

theorem claim_C4_witness :
    (handleAnalyzeProject ⟨[magdalineProject], none, false, "", FilterStatus.all⟩ 6).isAnalyzing
      = false ∧
    ∃ i, ∃ hi : i < ([magdalineProject] : List Project).length,
      (([magdalineProject] : List Project).get ⟨i, hi⟩).id = 6 ∧
      (handleAnalyzeProject ⟨[magdalineProject], none, false, "", FilterStatus.all⟩ 6).projects =
        ([magdalineProject] : List Project).set i
          { ([magdalineProject] : List Project).get ⟨i, hi⟩ with status := Status.completed } :=
  claim_C4 ⟨[magdalineProject], none, false, "", FilterStatus.all⟩ 6 (by decide) (by decide)

/-- Claim C5: the summary statistics ignore `searchTerm` and `statusFilter`
(they are computed over the full project list), and on the specification's
concrete two-record list they evaluate to
`{total := 2, completed := 1, inProgress := 0, pending := 1, averageScore := 90}`. -/
theorem claim_C5 :
    (∀ (s : DashState) (t : String) (f : FilterStatus),
        stats { s with searchTerm := t, filterStatus := f } = stats s) ∧
    stats ⟨[exPending80, exCompleted100], none, false, "", FilterStatus.all⟩ =
      ⟨2, 1, 0, 1, some 90⟩ := by
  refine ⟨fun _ _ _ => rfl, ?_⟩
  unfold stats
  norm_num [sumScores, jsDiv, jsRound, exPending80, exCompleted100, statusStr, List.filter]
  decide

/-- Claim C6: with the status filter set to `completed`, every record that
`getFilteredProjects` returns has status exactly `completed`; records with
status `failed`, `cancelled`, `pending` or `in-progress` are excluded. -/
theorem claim_C6 (s : DashState) (hf : s.filterStatus = FilterStatus.completed)
    (p : Project) (hp : p ∈ filteredProjects s) :
    p.status = Status.completed := by
  unfold filteredProjects at hp
  rw [List.mem_filter] at hp
  have h2 : matchesStatus p s.filterStatus = true := (Bool.and_eq_true _ _ |>.mp hp.2).2
  rw [hf] at h2
  exact filterCompleted_status p.status h2

theorem claim_C6_witness :
    omolloProject.status = Status.completed :=
  claim_C6 ⟨[omolloProject, magdalineProject], none, false, "", FilterStatus.completed⟩ rfl
    omolloProject (by decide)

/-- Claim C7: search matching is invariant under the casing of the search
term — two terms with the same lower-casing filter identically — and on the
mock records named "James Muganzi Imoli" and "Omollo Victor" the terms
"jam" and "JAM" both return exactly the first. -/
theorem claim_C7 :
    (∀ (ps : List Project) (sel : Option Project) (b b' : Bool) (t t' : String)
        (f : FilterStatus), toLowerStr t = toLowerStr t' →
        filteredProjects ⟨ps, sel, b, t, f⟩ = filteredProjects ⟨ps, sel, b', t', f⟩) ∧
    filteredProjects ⟨[jamesProject, omolloProject], none, false, "jam", FilterStatus.all⟩ =
      [jamesProject] ∧
    filteredProjects ⟨[jamesProject, omolloProject], none, false, "JAM", FilterStatus.all⟩ =
      [jamesProject] := by
  refine ⟨?_, by decide, by decide⟩
  intro ps sel b b' t t' f h
  show ps.filter (fun p => matchesSearch p t && matchesStatus p f) =
    ps.filter (fun p => matchesSearch p t' && matchesStatus p f)
  simp only [matchesSearch, h]

theorem claim_C7_witness :
    filteredProjects ⟨[jamesProject, omolloProject], none, false, "jam", FilterStatus.all⟩ =
      filteredProjects ⟨[jamesProject, omolloProject], none, false, "JAM", FilterStatus.all⟩ :=
  claim_C7.1 [jamesProject, omolloProject] none false false "jam" "JAM" FilterStatus.all
    (by decide)

/-- Claim C8: analysing an id that matches no record neither fails nor
touches any record: the flag is raised at the start, lowered once the delay
resolves, and the project list after completion is exactly the original. -/
theorem claim_C8 (s : DashState) (pid : Nat) (h : pid ∉ s.projects.map Project.id) :
    (analyzeStart s).isAnalyzing = true ∧
    (handleAnalyzeProject s pid).isAnalyzing = false ∧
    (handleAnalyzeProject s pid).projects = s.projects :=
  ⟨rfl, rfl, completeFirst_not_mem s.projects pid h⟩

theorem claim_C8_witness :
    (analyzeStart ⟨[jamesProject], none, false, "", FilterStatus.all⟩).isAnalyzing = true ∧
    (handleAnalyzeProject ⟨[jamesProject], none, false, "", FilterStatus.all⟩ 999).isAnalyzing
      = false ∧
    (handleAnalyzeProject ⟨[jamesProject], none, false, "", FilterStatus.all⟩ 999).projects =
      [jamesProject] :=
  claim_C8 ⟨[jamesProject], none, false, "", FilterStatus.all⟩ 999 (by decide)

/-- Claim C9: with the filter at `all` and an empty search term,
`getFilteredProjects` is the identity on the project list. -/
theorem claim_C9 (s : DashState) (hterm : s.searchTerm = "")
    (hf : s.filterStatus = FilterStatus.all) :
    filteredProjects s = s.projects := by
  unfold filteredProjects
  rw [List.filter_eq_self]
  intro p _
  simp [matchesSearch, matchesStatus, hterm, hf, toLowerStr_empty, containsSub_empty_pat,
    filterStr]

theorem claim_C9_witness :
    filteredProjects ⟨[jamesProject, omolloProject, magdalineProject], none, false, "",
      FilterStatus.all⟩ = [jamesProject, omolloProject, magdalineProject] :=
  claim_C9 ⟨[jamesProject, omolloProject, magdalineProject], none, false, "",
    FilterStatus.all⟩ rfl rfl

/-- Claim C10: the `ScoreBadge` percentage is total: for every integer score
and total, its guarded division never reaches a zero divisor, and the result
is the defined value `round(score / total * 100)` when `total > 0` and `0`
otherwise. -/
theorem claim_C10 (score total : Int) :
    scoreBadgePercentage score total =
      some (if total > 0 then jsRound ((score : ℚ) / (total : ℚ) * 100) else 0) := by
  unfold scoreBadgePercentage jsDiv
  by_cases h : total > 0
  · have hz : (total : ℚ) ≠ 0 := Int.cast_ne_zero.mpr (by omega)
    simp [h, hz]
  · simp [h]
